import Mathlib

/-!
Verification of the real-time chat gateway (backend/src/socket/socketHandler.js).

The development shallowly embeds the socket gateway: the JS value model used
by the payload checks, the three module-level registries (onlineUsers,
typingTimeouts, rateLimits, all JS Maps modelled as association lists), the
auth middleware, the per-event handlers, and the module helpers
(isUserOnline, sendToUser).  Time is an explicit Nat parameter (Date.now()),
and setTimeout callbacks are modelled as entries in typingTimeouts carrying
their scheduled fire time together with the data their closure captured;
firing a timer is an explicit transition that has an effect only while the
entry is still present (clearTimeout = removing the entry).
-/

namespace ChatGateway

/-- Subset of JavaScript values that can reach the payload and claim checks. -/
inductive JSVal where
  | str (s : String)
  | num (n : Int)
  | boolV (b : Bool)
  | nullV
  | undefVal
deriving DecidableEq, Repr

/-- JavaScript truthiness for the values above. -/
def jsTruthy : JSVal → Bool
  | .str s => !(decide (s = ""))
  | .num n => !(decide (n = 0))
  | .boolV b => b
  | .nullV => false
  | .undefVal => false

/-- JavaScript String() conversion for the values above. -/
def jsToString : JSVal → String
  | .str s => s
  | .num n => toString n
  | .boolV b => if b then "true" else "false"
  | .nullV => "null"
  | .undefVal => "undefined"

/-! Association-list model of a JS Map.  Only get / set / delete /
iteration are used by the gateway; set is modelled as delete-then-append,
which agrees with JS Map.set on every lookup the code performs. -/

def mapGet {α : Type} (m : List (String × α)) (k : String) : Option α :=
  (m.find? (fun p => decide (p.1 = k))).map Prod.snd

def mapDelete {α : Type} (m : List (String × α)) (k : String) : List (String × α) :=
  m.filter (fun p => !(decide (p.1 = k)))

def mapSet {α : Type} (m : List (String × α)) (k : String) (v : α) : List (String × α) :=
  mapDelete m k ++ [(k, v)]

/-- Number of entries a key has in an association list. -/
def countKey {α : Type} (m : List (String × α)) (k : String) : Nat :=
  (m.filter (fun p => decide (p.1 = k))).length

/-! Rate limiting (socketHandler.js lines 22-48). -/

/-- One rateLimits entry: { count, resetAt }. -/
structure RateEntry where
  count : Nat
  resetAt : Nat
deriving DecidableEq, Repr

/-- The rateLimits registry. -/
abbrev RateMap := List (String × RateEntry)

/-- checkRateLimit from socketHandler.js: fixed-window counter keyed by
`userId:event`; returns the allow decision and the updated registry. -/
def checkRateLimit (rl : RateMap) (userId event : String)
    (maxRequests windowMs now : Nat) : Bool × RateMap :=
  let key := userId ++ ":" ++ event
  match mapGet rl key with
  | none => (true, mapSet rl key ⟨1, now + windowMs⟩)
  | some entry =>
    if now > entry.resetAt then
      (true, mapSet rl key ⟨1, now + windowMs⟩)
    else if entry.count ≥ maxRequests then
      (false, rl)
    else
      (true, mapSet rl key ⟨entry.count + 1, entry.resetAt⟩)

/-- Run a sequence of checkRateLimit calls (one fixed key and policy) at the
given times; returns the list of decisions and the final registry. -/
def runRate (rl : RateMap) (userId event : String) (maxRequests windowMs : Nat) :
    List Nat → List Bool × RateMap
  | [] => ([], rl)
  | t :: ts =>
    let r := checkRateLimit rl userId event maxRequests windowMs t
    let rest := runRate r.2 userId event maxRequests windowMs ts
    (r.1 :: rest.1, rest.2)

/-! Validation (socketHandler.js lines 66-69). -/

/-- Character class of the regex in isValidMongoId: [a-f\d] under the i flag. -/
def regexHexChar (c : Char) : Bool :=
  c.isDigit || ('a' ≤ c && c ≤ 'f') || ('A' ≤ c && c ≤ 'F')

/-- isValidMongoId from socketHandler.js: falsy or non-string values fail,
otherwise the string must match the anchored 24-character class test. -/
def isValidMongoId (id : JSVal) : Bool :=
  if !(jsTruthy id) then false
  else
    match id with
    | .str s => decide (s.length = 24) && s.toList.all regexHexChar
    | _ => false

/-! Auth middleware (socketHandler.js lines 92-146). -/

/-- The token claim fields the middleware inspects: decoded.id,
decoded.userId, decoded._id. -/
structure Claims where
  idF : JSVal
  userIdF : JSVal
  underscoreIdF : JSVal
deriving DecidableEq, Repr

/-- Result of jwt.verify: success with the decoded claims, or one of the
two throwing failure modes the middleware can encounter (bad signature,
expired token); both throws land in the same catch block. -/
inductive VerifyResult where
  | ok (claims : Claims)
  | badSignature
  | expired
deriving DecidableEq, Repr

/-- A verification oracle standing for jwt.verify with the server secret. -/
abbrev Verifier := String → VerifyResult

/-- Handshake metadata: the parsed cookie header, or none when the request
carried no (or an empty) cookie header. -/
structure Handshake where
  cookieHeader : Option (List (String × String))
deriving DecidableEq, Repr

/-- Cookie lookup as the JS object access cookies[k]: missing keys read as
undefined. -/
def cookieLookup (cs : List (String × String)) (k : String) : JSVal :=
  match mapGet cs k with
  | some v => .str v
  | none => .undefVal

/-- const token = cookies.jwt || cookies.token, followed by the falsiness
test if (!token): none means the middleware rejects for a missing token. -/
def tokenOf (cs : List (String × String)) : Option String :=
  let j := cookieLookup cs "jwt"
  let tok := if jsTruthy j then j else cookieLookup cs "token"
  match tok with
  | .str v => if v = "" then none else some v
  | _ => none

/-- const userId = decoded.id || decoded.userId || decoded._id. -/
def extractUserId (c : Claims) : JSVal :=
  if jsTruthy c.idF then c.idF
  else if jsTruthy c.userIdF then c.userIdF
  else c.underscoreIdF

/-- The credential-resolving part of the io.use middleware, before the
connection-quota check: returns the reason string passed to next(new
Error(...)) on failure, or the resolved socket.userId string on success.
The catch block maps every jwt.verify throw to "Authentication failed". -/
def authResolve (verify : Verifier) (h : Handshake) : Except String String :=
  match h.cookieHeader with
  | none => .error "Authentication required"
  | some cookies =>
    match tokenOf cookies with
    | none => .error "Authentication token missing"
    | some tok =>
      match verify tok with
      | .badSignature => .error "Authentication failed"
      | .expired => .error "Authentication failed"
      | .ok claims =>
        let userId := extractUserId claims
        if !(jsTruthy userId) || !(isValidMongoId userId) then
          .error "Invalid token payload"
        else
          .ok (jsToString userId)

/-- A connected socket: its id and the userId stamped on it by the
middleware. -/
structure Socket where
  sid : String
  userId : String
deriving DecidableEq, Repr

/-- Outcome of the full io.use middleware (credential resolution plus the
5-connection quota check over io.sockets.sockets). -/
inductive AuthOutcome where
  | rejected (reason : String)
  | accepted (userId : String)
deriving DecidableEq, Repr

/-- Connections a user currently holds among the connected sockets. -/
def countConnections (sockets : List Socket) (uid : String) : Nat :=
  (sockets.filter (fun s => decide (s.userId = uid))).length

/-- The io.use middleware: resolve the credential, then reject when the
user already holds 5 or more connections. -/
def authMiddleware (verify : Verifier) (h : Handshake) (sockets : List Socket) :
    AuthOutcome :=
  match authResolve verify h with
  | .error reason => .rejected reason
  | .ok uid =>
    if countConnections sockets uid ≥ 5 then
      .rejected "Too many active connections"
    else
      .accepted uid

/-! Gateway state and emissions. -/

/-- A pending setTimeout armed by the typing handler: its scheduled fire
time and the receiverId / userId its closure captured. -/
structure Timer where
  fireAt : Nat
  receiverId : String
  userId : String
deriving DecidableEq, Repr

/-- The module-level mutable state of socketHandler.js: the connected
sockets of the io server and the three registries. -/
structure GatewayState where
  sockets : List Socket
  onlineUsers : List (String × String)
  typingTimeouts : List (String × Timer)
  rateLimits : RateMap
deriving DecidableEq, Repr

/-- State at module load: no sockets, all registries empty. -/
def initialState : GatewayState := ⟨[], [], [], []⟩

/-- Target of an emit call: io.emit, io.to(room).emit, or socket.emit. -/
inductive Target where
  | all
  | room (r : String)
  | selfSock (sid : String)
deriving DecidableEq, Repr

/-- Payload shapes of the events the gateway emits. -/
inductive Payload where
  | pUser (userId : String)
  | pUsers (users : List String)
  | pReadBy (readBy : String) (count : Nat)
  | pMarkReadOk (senderId : String) (count : Nat)
  | pError (msg : String)
deriving DecidableEq, Repr

/-- One emitted event. -/
structure Emit where
  target : Target
  event : String
  payload : Payload
deriving DecidableEq, Repr

/-- Socket lookup in io.sockets.sockets by socket id. -/
def findSocket (st : GatewayState) (sid : String) : Option Socket :=
  st.sockets.find? (fun s => decide (s.sid = sid))

/-- Room membership.  The only join the gateway performs is
socket.join(userId) at connection time, and socket.io additionally keeps
each socket in the room named by its own id, so a connected socket is in
room r iff r is its id or its userId. -/
def roomMembers (st : GatewayState) (room : String) : List Socket :=
  st.sockets.filter (fun s => decide (s.sid = room) || decide (s.userId = room))

/-- Socket ids that receive a given emission in a given state. -/
def recipients (st : GatewayState) (e : Emit) : List String :=
  match e.target with
  | .all => st.sockets.map Socket.sid
  | .room r => (roomMembers st r).map Socket.sid
  | .selfSock sid => if (findSocket st sid).isSome then [sid] else []

/-! Connection establishment (io.use middleware plus the io.on connection
prologue, socketHandler.js lines 151-163). -/

/-- Handle one inbound connection attempt.  A rejected attempt leaves the
state untouched and emits nothing.  An accepted socket is added to
io.sockets.sockets, recorded in onlineUsers, joined to its user room
(tracked implicitly by roomMembers), and the prologue emits user_online to
everyone and the online_users snapshot to the new socket. -/
def onConnect (verify : Verifier) (st : GatewayState) (h : Handshake) (sid : String) :
    GatewayState × List Emit :=
  if st.sockets.any (fun s => decide (s.sid = sid)) then (st, [])
  else
    match authMiddleware verify h st.sockets with
    | .rejected _ => (st, [])
    | .accepted uid =>
      let newOnline := mapSet st.onlineUsers uid sid
      ({ st with
          sockets := st.sockets ++ [⟨sid, uid⟩],
          onlineUsers := newOnline },
       [⟨.all, "user_online", .pUser uid⟩,
        ⟨.selfSock sid, "online_users", .pUsers (newOnline.map Prod.fst)⟩])

/-! Event handlers (socketHandler.js lines 177-288). -/

/-- The mark_read handler.  The write to the external message store
(Message.updateMany) is abstracted by its observable result modifiedCount;
a thrown invalid-sender error is answered through the catch block with
mark_read_error carrying the message of the throw. -/
def onMarkRead (st : GatewayState) (sid : String) (senderId : JSVal)
    (modifiedCount : Nat) (now : Nat) : GatewayState × List Emit :=
  match findSocket st sid with
  | none => (st, [])
  | some sock =>
    let r := checkRateLimit st.rateLimits sock.userId "mark_read" 20 1000 now
    let st := { st with rateLimits := r.2 }
    if !r.1 then
      (st, [⟨.selfSock sid, "mark_read_error", .pError "Rate limit exceeded"⟩])
    else if !(isValidMongoId senderId) then
      (st, [⟨.selfSock sid, "mark_read_error", .pError "Invalid sender ID"⟩])
    else
      (st, [⟨.room (jsToString senderId), "messages_read",
              .pReadBy sock.userId modifiedCount⟩,
            ⟨.selfSock sid, "mark_read_success",
              .pMarkReadOk (jsToString senderId) modifiedCount⟩])

/-- The typing handler: id format check, rate limit (3 per 1000ms), emit
user_typing to the receiver room, clear any previous timeout of this
socket and arm a fresh one 5000ms out. -/
def onTyping (st : GatewayState) (sid : String) (receiverId : JSVal) (now : Nat) :
    GatewayState × List Emit :=
  match findSocket st sid with
  | none => (st, [])
  | some sock =>
    if !(isValidMongoId receiverId) then (st, [])
    else
      let r := checkRateLimit st.rateLimits sock.userId "typing" 3 1000 now
      let st := { st with rateLimits := r.2 }
      if !r.1 then (st, [])
      else
        let rid := jsToString receiverId
        ({ st with
            typingTimeouts :=
              mapSet st.typingTimeouts sid ⟨now + 5000, rid, sock.userId⟩ },
         [⟨.room rid, "user_typing", .pUser sock.userId⟩])

/-- The stop_typing handler: id format check, clear any pending timeout of
this socket, then emit user_stop_typing to the receiver room. -/
def onStopTyping (st : GatewayState) (sid : String) (receiverId : JSVal) :
    GatewayState × List Emit :=
  match findSocket st sid with
  | none => (st, [])
  | some sock =>
    if !(isValidMongoId receiverId) then (st, [])
    else
      ({ st with typingTimeouts := mapDelete st.typingTimeouts sid },
       [⟨.room (jsToString receiverId), "user_stop_typing", .pUser sock.userId⟩])

/-- A typing timeout firing: has an effect only while its entry is still in
typingTimeouts (clearTimeout removed it otherwise); emits user_stop_typing
to the captured receiver and deletes its own entry. -/
def fireTypingTimeout (st : GatewayState) (sid : String) : GatewayState × List Emit :=
  match mapGet st.typingTimeouts sid with
  | none => (st, [])
  | some tm =>
    ({ st with typingTimeouts := mapDelete st.typingTimeouts sid },
     [⟨.room tm.receiverId, "user_stop_typing", .pUser tm.userId⟩])

/-- The disconnect handler: the socket leaves io.sockets.sockets, the
userId entry is deleted from onlineUsers, user_offline is broadcast, this
socket timeout entry is cleared, and every rateLimits key starting with the
userId is deleted. -/
def onDisconnect (st : GatewayState) (sid : String) : GatewayState × List Emit :=
  match findSocket st sid with
  | none => (st, [])
  | some sock =>
    ({ sockets := st.sockets.filter (fun s => !(decide (s.sid = sid))),
       onlineUsers := mapDelete st.onlineUsers sock.userId,
       typingTimeouts := mapDelete st.typingTimeouts sid,
       rateLimits := st.rateLimits.filter (fun p => !(p.1.startsWith sock.userId)) },
     [⟨.all, "user_offline", .pUser sock.userId⟩])

/-! Module helpers (socketHandler.js lines 331-359). -/

/-- getOnlineUsers: the keys of onlineUsers. -/
def getOnlineUsers (st : GatewayState) : List String :=
  st.onlineUsers.map Prod.fst

/-- isUserOnline: onlineUsers.has(userId). -/
def isUserOnline (st : GatewayState) (uid : String) : Bool :=
  (mapGet st.onlineUsers uid).isSome

/-- sendToUser: when io is uninitialized (none), warn and return false with
no delivery; otherwise emit the event to the user room and return true. -/
def sendToUser (ioState : Option GatewayState) (userId event : String)
    (data : Payload) : Bool × List Emit :=
  match ioState with
  | none => (false, [])
  | some _ => (true, [⟨.room userId, event, data⟩])

/-! Transition system over the gateway state. -/

/-- One externally triggered event of the gateway runtime. -/
inductive GEvent where
  | connect (h : Handshake) (sid : String)
  | typing (sid : String) (receiverId : JSVal) (now : Nat)
  | stopTyping (sid : String) (receiverId : JSVal)
  | markRead (sid : String) (senderId : JSVal) (modifiedCount : Nat) (now : Nat)
  | timerFire (sid : String)
  | disconnect (sid : String)
deriving Repr

/-- Dispatch one event against the state. -/
def stepEvent (verify : Verifier) (st : GatewayState) : GEvent → GatewayState × List Emit
  | .connect h sid => onConnect verify st h sid
  | .typing sid rid now => onTyping st sid rid now
  | .stopTyping sid rid => onStopTyping st sid rid
  | .markRead sid sender cnt now => onMarkRead st sid sender cnt now
  | .timerFire sid => fireTypingTimeout st sid
  | .disconnect sid => onDisconnect st sid

/-- States reachable from module load under a fixed verifier. -/
inductive Reachable (verify : Verifier) : GatewayState → Prop
  | init : Reachable verify initialState
  | step {st : GatewayState} (e : GEvent) :
      Reachable verify st → Reachable verify (stepEvent verify st e).1

/-- All the socket ids that currently receive an emission. -/
def deliveredSids (st : GatewayState) (ems : List Emit) : List String :=
  ems.flatMap (recipients st)

/-! Hexadecimal characters, and concrete data used by the closed instances
below. -/

/-- The 22 hexadecimal characters. -/
def hexChars : List Char := "0123456789abcdefABCDEF".toList

/-- A well-formed user id (24 hex characters). -/
def uA : String := "aaaaaaaaaaaaaaaaaaaaaaaa"

/-- A second well-formed user id, used as typing receiver. -/
def uB : String := "bbbbbbbbbbbbbbbbbbbbbbbb"

/-- A verification oracle for the concrete runs: one good token resolving
to uA, one token with a bad signature, one expired token, and one whose
claims carry no well-formed id. -/
def verify1 : Verifier := fun tok =>
  if tok = "tok-good" then .ok ⟨.str uA, .undefVal, .undefVal⟩
  else if tok = "tok-badsig" then .badSignature
  else if tok = "tok-expired" then .expired
  else .ok ⟨.str "zzz", .undefVal, .undefVal⟩

/-- Handshake carrying the good token. -/
def hsGood : Handshake := ⟨some [("jwt", "tok-good")]⟩

/-- Handshake with no cookie header at all. -/
def hsNoCookie : Handshake := ⟨none⟩

/-- Handshake whose cookies hold no token field. -/
def hsNoToken : Handshake := ⟨some [("theme", "dark")]⟩

/-- Handshake carrying the token with the invalid signature. -/
def hsBadSig : Handshake := ⟨some [("jwt", "tok-badsig")]⟩

/-- Handshake carrying the expired token. -/
def hsExpired : Handshake := ⟨some [("jwt", "tok-expired")]⟩

/-- Handshake carrying the token with malformed claims. -/
def hsBadClaims : Handshake := ⟨some [("jwt", "tok-badclaims")]⟩

/-- State after uA connects once (connection id s1). -/
def st1 : GatewayState := (onConnect verify1 initialState hsGood "s1").1

/-- State after uA connects a second time (connection id s2). -/
def st2 : GatewayState := (onConnect verify1 st1 hsGood "s2").1

/-- st2 with a saturated stop_typing rate-limit entry for uA whose window
is still far from expiring. -/
def stSaturated : GatewayState :=
  { st2 with rateLimits := [(uA ++ ":stop_typing", ⟨1000000, 1000000000⟩)] }

/-- A state with five established connections of uA. -/
def stFive : GatewayState :=
  { sockets := [⟨"c1", uA⟩, ⟨"c2", uA⟩, ⟨"c3", uA⟩, ⟨"c4", uA⟩, ⟨"c5", uA⟩],
    onlineUsers := [(uA, "c5")],
    typingTimeouts := [],
    rateLimits := [] }

/-- st2 after connection s1 sent a typing event toward uB at time 0. -/
def stTyping : GatewayState := (onTyping st2 "s1" (.str uB) 0).1

/-- st2 with saturated typing and mark_read windows for uA that are far
from expiring. -/
def stRateLimited : GatewayState :=
  { st2 with
      rateLimits := [(uA ++ ":typing", ⟨3, 1000000000⟩),
                     (uA ++ ":mark_read", ⟨20, 1000000000⟩)] }

/-! Association-list lemmas. -/

theorem mapGet_cons_self {α : Type} (p : String × α) (m : List (String × α))
    (k : String) (h : p.1 = k) : mapGet (p :: m) k = some p.2 := by
  unfold mapGet
  rw [List.find?_cons_of_pos _ (by simpa using h)]
  rfl

theorem mapGet_cons_ne {α : Type} (p : String × α) (m : List (String × α))
    (k : String) (h : ¬(p.1 = k)) : mapGet (p :: m) k = mapGet m k := by
  unfold mapGet
  rw [List.find?_cons_of_neg _ (by simpa using h)]

theorem mapDelete_cons_self {α : Type} (p : String × α) (m : List (String × α))
    (k : String) (h : p.1 = k) : mapDelete (p :: m) k = mapDelete m k := by
  unfold mapDelete
  rw [List.filter_cons_of_neg (by simpa using h)]

theorem mapDelete_cons_ne {α : Type} (p : String × α) (m : List (String × α))
    (k : String) (h : ¬(p.1 = k)) : mapDelete (p :: m) k = p :: mapDelete m k := by
  unfold mapDelete
  rw [List.filter_cons_of_pos (by simpa using h)]

theorem mapGet_mapDelete_self {α : Type} (m : List (String × α)) (k : String) :
    mapGet (mapDelete m k) k = none := by
  induction m with
  | nil => rfl
  | cons p m ih =>
    by_cases h : p.1 = k
    · rw [mapDelete_cons_self p m k h]; exact ih
    · rw [mapDelete_cons_ne p m k h, mapGet_cons_ne p _ k h]; exact ih

theorem mapGet_mapDelete_ne {α : Type} (m : List (String × α)) (k k' : String)
    (h : k' ≠ k) : mapGet (mapDelete m k) k' = mapGet m k' := by
  induction m with
  | nil => rfl
  | cons p m ih =>
    by_cases hp : p.1 = k
    · have hp' : ¬(p.1 = k') := by rw [hp]; exact fun he => h he.symm
      rw [mapDelete_cons_self p m k hp, mapGet_cons_ne p m k' hp']
      exact ih
    · by_cases hq : p.1 = k'
      · rw [mapDelete_cons_ne p m k hp, mapGet_cons_self p _ k' hq,
          mapGet_cons_self p m k' hq]
      · rw [mapDelete_cons_ne p m k hp, mapGet_cons_ne p _ k' hq,
          mapGet_cons_ne p m k' hq]
        exact ih

theorem mapGet_append_right {α : Type} (m m' : List (String × α)) (k : String)
    (h : mapGet m k = none) : mapGet (m ++ m') k = mapGet m' k := by
  induction m with
  | nil => rfl
  | cons p m ih =>
    by_cases hp : p.1 = k
    · rw [mapGet_cons_self p m k hp] at h
      exact absurd h (by simp)
    · rw [mapGet_cons_ne p m k hp] at h
      rw [List.cons_append, mapGet_cons_ne p _ k hp]
      exact ih h

theorem mapGet_mapSet_self {α : Type} (m : List (String × α)) (k : String) (v : α) :
    mapGet (mapSet m k v) k = some v := by
  rw [mapSet, mapGet_append_right _ _ _ (mapGet_mapDelete_self m k)]
  exact mapGet_cons_self (k, v) [] k rfl

theorem mapGet_mapSet_ne {α : Type} (m : List (String × α)) (k k' : String) (v : α)
    (h : k' ≠ k) : mapGet (mapSet m k v) k' = mapGet m k' := by
  have h2 : mapGet ([(k, v)] : List (String × α)) k' = none := by
    rw [mapGet_cons_ne (k, v) [] k' (fun he => h he.symm)]
    rfl
  rw [mapSet]
  induction m with
  | nil =>
    simpa [mapDelete] using h2
  | cons p m ih =>
    by_cases hp : p.1 = k
    · have hp' : ¬(p.1 = k') := by rw [hp]; exact fun he => h he.symm
      rw [mapDelete_cons_self p m k hp, mapGet_cons_ne p m k' hp']
      exact ih
    · by_cases hq : p.1 = k'
      · rw [mapDelete_cons_ne p m k hp, List.cons_append,
          mapGet_cons_self p _ k' hq, mapGet_cons_self p m k' hq]
      · rw [mapDelete_cons_ne p m k hp, List.cons_append,
          mapGet_cons_ne p _ k' hq, mapGet_cons_ne p m k' hq]
        exact ih

theorem countKey_cons_self {α : Type} (p : String × α) (m : List (String × α))
    (k : String) (h : p.1 = k) : countKey (p :: m) k = countKey m k + 1 := by
  unfold countKey
  rw [List.filter_cons_of_pos (by simpa using h)]
  simp [List.length_cons]

theorem countKey_cons_ne {α : Type} (p : String × α) (m : List (String × α))
    (k : String) (h : ¬(p.1 = k)) : countKey (p :: m) k = countKey m k := by
  unfold countKey
  rw [List.filter_cons_of_neg (by simpa using h)]

theorem countKey_mapDelete_self {α : Type} (m : List (String × α)) (k : String) :
    countKey (mapDelete m k) k = 0 := by
  induction m with
  | nil => rfl
  | cons p m ih =>
    by_cases h : p.1 = k
    · rw [mapDelete_cons_self p m k h]; exact ih
    · rw [mapDelete_cons_ne p m k h, countKey_cons_ne p _ k h]; exact ih

theorem countKey_mapDelete_ne {α : Type} (m : List (String × α)) (k k' : String)
    (h : k' ≠ k) : countKey (mapDelete m k) k' = countKey m k' := by
  induction m with
  | nil => rfl
  | cons p m ih =>
    by_cases hp : p.1 = k
    · have hp' : ¬(p.1 = k') := by rw [hp]; exact fun he => h he.symm
      rw [mapDelete_cons_self p m k hp, countKey_cons_ne p m k' hp']
      exact ih
    · by_cases hq : p.1 = k'
      · rw [mapDelete_cons_ne p m k hp, countKey_cons_self p _ k' hq,
          countKey_cons_self p m k' hq, ih]
      · rw [mapDelete_cons_ne p m k hp, countKey_cons_ne p _ k' hq,
          countKey_cons_ne p m k' hq]
        exact ih

theorem countKey_append {α : Type} (m m' : List (String × α)) (k : String) :
    countKey (m ++ m') k = countKey m k + countKey m' k := by
  simp [countKey, List.filter_append]

theorem countKey_mapSet_self {α : Type} (m : List (String × α)) (k : String) (v : α) :
    countKey (mapSet m k v) k = 1 := by
  rw [mapSet, countKey_append, countKey_mapDelete_self]
  rw [countKey_cons_self (k, v) [] k rfl]
  rfl

theorem countKey_mapSet_ne {α : Type} (m : List (String × α)) (k k' : String) (v : α)
    (h : k' ≠ k) : countKey (mapSet m k v) k' = countKey m k' := by
  rw [mapSet, countKey_append, countKey_mapDelete_ne m k k' h,
    countKey_cons_ne (k, v) [] k' (fun he => h he.symm)]
  rfl

/-! Rate-limiter lemmas. -/

theorem checkRateLimit_single (u e : String) (maxR w t c R : Nat) :
    checkRateLimit [(u ++ ":" ++ e, ⟨c, R⟩)] u e maxR w t =
      if t > R then (true, [(u ++ ":" ++ e, ⟨1, t + w⟩)])
      else if c ≥ maxR then (false, [(u ++ ":" ++ e, ⟨c, R⟩)])
      else (true, [(u ++ ":" ++ e, ⟨c + 1, R⟩)]) := by
  simp [checkRateLimit, mapGet, mapSet, mapDelete, List.find?, List.filter]

theorem checkRateLimit_fresh (rl : RateMap) (u e : String) (maxR w t : Nat)
    (h : mapGet rl (u ++ ":" ++ e) = none) :
    checkRateLimit rl u e maxR w t = (true, mapSet rl (u ++ ":" ++ e) ⟨1, t + w⟩) := by
  simp [checkRateLimit, h]

/-- In-window behaviour of a run of calls against a single-entry registry:
with current count c ≤ maxR and all call times inside the window, call i is
allowed iff c + i < maxR, and the entry ends at count min (c + n) maxR with
the reset time untouched. -/
theorem runRate_window (u e : String) (maxR w R : Nat) :
    ∀ ts : List Nat, (∀ t ∈ ts, t ≤ R) → ∀ c : Nat, c ≤ maxR →
      runRate [(u ++ ":" ++ e, ⟨c, R⟩)] u e maxR w ts
        = ((List.range ts.length).map (fun i => decide (c + i < maxR)),
           [(u ++ ":" ++ e, ⟨min (c + ts.length) maxR, R⟩)]) := by
  intro ts
  induction ts with
  | nil =>
    intro _ c hc
    simp [runRate]
    omega
  | cons t ts ih =>
    intro h c hc
    have ht : ¬ t > R := by
      have := h t (List.mem_cons_self t ts)
      omega
    have hts : ∀ x ∈ ts, x ≤ R := fun x hx => h x (List.mem_cons_of_mem t hx)
    by_cases hcm : c ≥ maxR
    · have hstep : checkRateLimit [(u ++ ":" ++ e, ⟨c, R⟩)] u e maxR w t
          = (false, [(u ++ ":" ++ e, ⟨c, R⟩)]) := by
        rw [checkRateLimit_single, if_neg ht, if_pos hcm]
      simp only [runRate, hstep, ih hts c hc]
      refine Prod.ext ?_ ?_
      · show false :: _ = _
        rw [List.length_cons, List.range_succ_eq_map, List.map_cons]
        refine List.cons_eq_cons.mpr ⟨?_, ?_⟩
        · simp; omega
        · rw [List.map_map]
          refine List.map_congr_left (fun a _ => ?_)
          show decide (c + a < maxR) = decide (c + Nat.succ a < maxR)
          exact decide_eq_decide.mpr (by omega)
      · show [(u ++ ":" ++ e, (⟨min (c + ts.length) maxR, R⟩ : RateEntry))] = _
        rw [List.length_cons]
        have : min (c + ts.length) maxR = min (c + (ts.length + 1)) maxR := by omega
        rw [this]
    · have hstep : checkRateLimit [(u ++ ":" ++ e, ⟨c, R⟩)] u e maxR w t
          = (true, [(u ++ ":" ++ e, ⟨c + 1, R⟩)]) := by
        rw [checkRateLimit_single, if_neg ht, if_neg hcm]
      simp only [runRate, hstep, ih hts (c + 1) (by omega)]
      refine Prod.ext ?_ ?_
      · show true :: _ = _
        rw [List.length_cons, List.range_succ_eq_map, List.map_cons]
        refine List.cons_eq_cons.mpr ⟨?_, ?_⟩
        · simp; omega
        · rw [List.map_map]
          refine List.map_congr_left (fun a _ => ?_)
          show decide (c + 1 + a < maxR) = decide (c + Nat.succ a < maxR)
          exact decide_eq_decide.mpr (by omega)
      · show [(u ++ ":" ++ e, (⟨min (c + 1 + ts.length) maxR, R⟩ : RateEntry))] = _
        rw [List.length_cons]
        have : min (c + 1 + ts.length) maxR = min (c + (ts.length + 1)) maxR := by omega
        rw [this]

/-! Hexadecimal character class. -/

/-- The regex character class [a-f\d] with the i flag matches exactly the
hexadecimal characters. -/
theorem regexHexChar_iff_mem (c : Char) : regexHexChar c = true ↔ c ∈ hexChars := by
  have hmap : hexChars.map Char.toNat =
      [48, 49, 50, 51, 52, 53, 54, 55, 56, 57, 97, 98, 99, 100, 101, 102,
       65, 66, 67, 68, 69, 70] := by decide
  constructor
  · intro h
    simp only [regexHexChar, Char.isDigit, Bool.or_eq_true, Bool.and_eq_true,
      decide_eq_true_eq] at h
    have hn : (48 ≤ c.toNat ∧ c.toNat ≤ 57) ∨ (97 ≤ c.toNat ∧ c.toNat ≤ 102) ∨
        (65 ≤ c.toNat ∧ c.toNat ≤ 70) := by
      rcases h with (⟨h1, h2⟩ | ⟨h1, h2⟩) | ⟨h1, h2⟩
      · exact Or.inl ⟨h1, h2⟩
      · exact Or.inr (Or.inl ⟨h1, h2⟩)
      · exact Or.inr (Or.inr ⟨h1, h2⟩)
    have hmem : c.toNat ∈ hexChars.map Char.toNat := by
      rw [hmap]
      simp only [List.mem_cons, List.not_mem_nil, or_false]
      omega
    rcases List.mem_map.mp hmem with ⟨d, hd, hdc⟩
    have hdceq : d = c := by
      apply Char.ext
      apply UInt32.ext
      exact hdc
    exact hdceq ▸ hd
  · intro h
    have h2 : c.toNat ∈ hexChars.map Char.toNat := List.mem_map_of_mem Char.toNat h
    rw [hmap] at h2
    have h3 : (48 ≤ c.toNat ∧ c.toNat ≤ 57) ∨ (97 ≤ c.toNat ∧ c.toNat ≤ 102) ∨
        (65 ≤ c.toNat ∧ c.toNat ≤ 70) := by
      simp only [List.mem_cons, List.not_mem_nil, or_false] at h2
      omega
    simp only [regexHexChar, Char.isDigit, Bool.or_eq_true, Bool.and_eq_true,
      decide_eq_true_eq]
    rcases h3 with ⟨h4, h5⟩ | ⟨h4, h5⟩ | ⟨h4, h5⟩
    · exact Or.inl (Or.inl ⟨h4, h5⟩)
    · exact Or.inl (Or.inr ⟨h4, h5⟩)
    · exact Or.inr ⟨h4, h5⟩

/-! Handler shape lemmas: which registries each handler can touch. -/

theorem length_filter_and_le {α : Type} (l : List α) (p q : α → Bool) :
    (l.filter (fun a => p a && q a)).length ≤ (l.filter p).length := by
  induction l with
  | nil => simp
  | cons a l ih =>
    by_cases hp : p a <;> by_cases hq : q a <;>
      simp [List.filter, hp, hq] <;> omega

theorem countConnections_filter_le (l : List Socket) (f : Socket → Bool)
    (uid : String) : countConnections (l.filter f) uid ≤ countConnections l uid := by
  unfold countConnections
  rw [List.filter_filter]
  exact length_filter_and_le l _ f

theorem countConnections_append_one (l : List Socket) (s : Socket) (uid : String) :
    countConnections (l ++ [s]) uid
      = countConnections l uid + (if s.userId = uid then 1 else 0) := by
  unfold countConnections
  rw [List.filter_append]
  by_cases h : s.userId = uid <;> simp [List.filter, h]

theorem authMiddleware_accepted_quota (verify : Verifier) (h : Handshake)
    (sockets : List Socket) (uid : String)
    (hacc : authMiddleware verify h sockets = .accepted uid) :
    countConnections sockets uid < 5 := by
  unfold authMiddleware at hacc
  cases hres : authResolve verify h with
  | error r => rw [hres] at hacc; exact absurd hacc (by simp)
  | ok u =>
    rw [hres] at hacc
    have hacc2 : (if countConnections sockets u ≥ 5 then
        AuthOutcome.rejected "Too many active connections"
        else AuthOutcome.accepted u) = AuthOutcome.accepted uid := hacc
    by_cases hq : countConnections sockets u ≥ 5
    · rw [if_pos hq] at hacc2; exact absurd hacc2 (by simp)
    · rw [if_neg hq] at hacc2
      have heq : u = uid := by simpa using hacc2
      subst heq
      omega

theorem onTyping_sockets (st : GatewayState) (sid : String) (rid : JSVal)
    (now : Nat) : (onTyping st sid rid now).1.sockets = st.sockets := by
  unfold onTyping
  split
  · rfl
  · split
    · rfl
    · dsimp only
      split
      · rfl
      · rfl

theorem onStopTyping_sockets (st : GatewayState) (sid : String) (rid : JSVal) :
    (onStopTyping st sid rid).1.sockets = st.sockets := by
  unfold onStopTyping
  split
  · rfl
  · split
    · rfl
    · rfl

theorem onMarkRead_sockets (st : GatewayState) (sid : String) (sender : JSVal)
    (cnt now : Nat) : (onMarkRead st sid sender cnt now).1.sockets = st.sockets := by
  unfold onMarkRead
  split
  · rfl
  · dsimp only
    split
    · rfl
    · split
      · rfl
      · rfl

theorem fireTypingTimeout_sockets (st : GatewayState) (sid : String) :
    (fireTypingTimeout st sid).1.sockets = st.sockets := by
  unfold fireTypingTimeout
  split
  · rfl
  · rfl

theorem onConnect_timeouts (verify : Verifier) (st : GatewayState) (h : Handshake)
    (sid : String) :
    (onConnect verify st h sid).1.typingTimeouts = st.typingTimeouts := by
  unfold onConnect
  split
  · rfl
  · split
    · rfl
    · rfl

theorem onMarkRead_timeouts (st : GatewayState) (sid : String) (sender : JSVal)
    (cnt now : Nat) :
    (onMarkRead st sid sender cnt now).1.typingTimeouts = st.typingTimeouts := by
  unfold onMarkRead
  split
  · rfl
  · dsimp only
    split
    · rfl
    · split
      · rfl
      · rfl

theorem onConnect_sockets_shape (verify : Verifier) (st : GatewayState)
    (h : Handshake) (sid : String) :
    (onConnect verify st h sid).1.sockets = st.sockets ∨
    ∃ uid, authMiddleware verify h st.sockets = .accepted uid ∧
      (onConnect verify st h sid).1.sockets = st.sockets ++ [⟨sid, uid⟩] := by
  unfold onConnect
  split
  · exact Or.inl rfl
  · split
    · exact Or.inl rfl
    · rename_i uid heq
      exact Or.inr ⟨uid, heq, rfl⟩

theorem onDisconnect_sockets_shape (st : GatewayState) (sid : String) :
    (onDisconnect st sid).1.sockets = st.sockets ∨
    (onDisconnect st sid).1.sockets
      = st.sockets.filter (fun s => !(decide (s.sid = sid))) := by
  unfold onDisconnect
  split
  · exact Or.inl rfl
  · exact Or.inr rfl

theorem onTyping_timeouts_shape (st : GatewayState) (sid : String) (rid : JSVal)
    (now : Nat) :
    (onTyping st sid rid now).1.typingTimeouts = st.typingTimeouts ∨
    ∃ tm : Timer, (onTyping st sid rid now).1.typingTimeouts
      = mapSet st.typingTimeouts sid tm := by
  unfold onTyping
  split
  · exact Or.inl rfl
  · split
    · exact Or.inl rfl
    · dsimp only
      split
      · exact Or.inl rfl
      · exact Or.inr ⟨_, rfl⟩

theorem onStopTyping_timeouts_shape (st : GatewayState) (sid : String) (rid : JSVal) :
    (onStopTyping st sid rid).1.typingTimeouts = st.typingTimeouts ∨
    (onStopTyping st sid rid).1.typingTimeouts = mapDelete st.typingTimeouts sid := by
  unfold onStopTyping
  split
  · exact Or.inl rfl
  · split
    · exact Or.inl rfl
    · exact Or.inr rfl

theorem fireTypingTimeout_timeouts_shape (st : GatewayState) (sid : String) :
    (fireTypingTimeout st sid).1.typingTimeouts = st.typingTimeouts ∨
    (fireTypingTimeout st sid).1.typingTimeouts = mapDelete st.typingTimeouts sid := by
  unfold fireTypingTimeout
  split
  · exact Or.inl rfl
  · exact Or.inr rfl

theorem onDisconnect_timeouts_shape (st : GatewayState) (sid : String) :
    (onDisconnect st sid).1.typingTimeouts = st.typingTimeouts ∨
    (onDisconnect st sid).1.typingTimeouts = mapDelete st.typingTimeouts sid := by
  unfold onDisconnect
  split
  · exact Or.inl rfl
  · exact Or.inr rfl

/-! Reachability invariants. -/

theorem step_quota (verify : Verifier) (st : GatewayState) (e : GEvent) (uid : String)
    (ih : countConnections st.sockets uid ≤ 5) :
    countConnections (stepEvent verify st e).1.sockets uid ≤ 5 := by
  cases e with
  | connect hs sid =>
    simp only [stepEvent]
    rcases onConnect_sockets_shape verify st hs sid with heq | ⟨u2, hacc, heq⟩
    · rw [heq]; exact ih
    · rw [heq, countConnections_append_one]
      have hq := authMiddleware_accepted_quota verify hs st.sockets u2 hacc
      by_cases hu : (Socket.mk sid u2).userId = uid
      · rw [if_pos hu]
        have hu2 : u2 = uid := hu
        subst hu2
        omega
      · rw [if_neg hu]
        omega
  | typing sid rid now =>
    simp only [stepEvent, onTyping_sockets]
    exact ih
  | stopTyping sid rid =>
    simp only [stepEvent, onStopTyping_sockets]
    exact ih
  | markRead sid sender cnt now =>
    simp only [stepEvent, onMarkRead_sockets]
    exact ih
  | timerFire sid =>
    simp only [stepEvent, fireTypingTimeout_sockets]
    exact ih
  | disconnect sid =>
    simp only [stepEvent]
    rcases onDisconnect_sockets_shape st sid with heq | heq
    · rw [heq]; exact ih
    · rw [heq]
      exact le_trans (countConnections_filter_le st.sockets _ uid) ih

/-- Every reachable state keeps every user at 5 connections or fewer. -/
theorem reachable_quota (verify : Verifier) (st : GatewayState)
    (h : Reachable verify st) (uid : String) : countConnections st.sockets uid ≤ 5 := by
  induction h with
  | init => simp [initialState, countConnections]
  | step e _ ih => exact step_quota verify _ e uid ih

theorem countKey_mapDelete_le_one {α : Type} (m : List (String × α)) (sid k : String)
    (ih : countKey m k ≤ 1) : countKey (mapDelete m sid) k ≤ 1 := by
  by_cases hk : k = sid
  · subst hk
    rw [countKey_mapDelete_self]
    omega
  · rw [countKey_mapDelete_ne m sid k hk]
    exact ih

theorem step_timerCount (verify : Verifier) (st : GatewayState) (e : GEvent)
    (k : String) (ih : countKey st.typingTimeouts k ≤ 1) :
    countKey (stepEvent verify st e).1.typingTimeouts k ≤ 1 := by
  cases e with
  | connect hs sid =>
    simp only [stepEvent, onConnect_timeouts]
    exact ih
  | typing sid rid now =>
    simp only [stepEvent]
    rcases onTyping_timeouts_shape st sid rid now with heq | ⟨tm, heq⟩
    · rw [heq]; exact ih
    · rw [heq]
      by_cases hk : k = sid
      · subst hk
        rw [countKey_mapSet_self]
      · rw [countKey_mapSet_ne _ sid k tm hk]
        exact ih
  | stopTyping sid rid =>
    simp only [stepEvent]
    rcases onStopTyping_timeouts_shape st sid rid with heq | heq <;> rw [heq]
    · exact ih
    · exact countKey_mapDelete_le_one _ sid k ih
  | markRead sid sender cnt now =>
    simp only [stepEvent, onMarkRead_timeouts]
    exact ih
  | timerFire sid =>
    simp only [stepEvent]
    rcases fireTypingTimeout_timeouts_shape st sid with heq | heq <;> rw [heq]
    · exact ih
    · exact countKey_mapDelete_le_one _ sid k ih
  | disconnect sid =>
    simp only [stepEvent]
    rcases onDisconnect_timeouts_shape st sid with heq | heq <;> rw [heq]
    · exact ih
    · exact countKey_mapDelete_le_one _ sid k ih

/-- Every reachable state has at most one pending stop-task per connection. -/
theorem reachable_timerCount (verify : Verifier) (st : GatewayState)
    (h : Reachable verify st) (k : String) : countKey st.typingTimeouts k ≤ 1 := by
  induction h with
  | init => simp [initialState, countKey]
  | step e _ ih => exact step_timerCount verify _ e k ih

/-! Further rate-limiter case equations. -/

theorem checkRateLimit_reset (rl : RateMap) (u e : String) (maxR w t : Nat)
    (en : RateEntry) (h : mapGet rl (u ++ ":" ++ e) = some en)
    (ht : t > en.resetAt) :
    checkRateLimit rl u e maxR w t = (true, mapSet rl (u ++ ":" ++ e) ⟨1, t + w⟩) := by
  simp [checkRateLimit, h, ht]

theorem checkRateLimit_increment (rl : RateMap) (u e : String) (maxR w t : Nat)
    (en : RateEntry) (h : mapGet rl (u ++ ":" ++ e) = some en)
    (ht : ¬ t > en.resetAt) (hc : en.count < maxR) :
    checkRateLimit rl u e maxR w t
      = (true, mapSet rl (u ++ ":" ++ e) ⟨en.count + 1, en.resetAt⟩) := by
  simp [checkRateLimit, h, ht]
  omega

theorem checkRateLimit_reject (rl : RateMap) (u e : String) (maxR w t : Nat)
    (en : RateEntry) (h : mapGet rl (u ++ ":" ++ e) = some en)
    (ht : ¬ t > en.resetAt) (hc : en.count ≥ maxR) :
    checkRateLimit rl u e maxR w t = (false, rl) := by
  simp [checkRateLimit, h, ht, hc]

/-- A full run from the empty registry with all later calls inside the
window opened by the first call. -/
theorem runRate_from_empty (u e : String) (maxR w t0 : Nat) (ts : List Nat)
    (hmax : 0 < maxR) (hts : ∀ t ∈ ts, t ≤ t0 + w) :
    (runRate [] u e maxR w (t0 :: ts)).1
      = (List.range (ts.length + 1)).map (fun i => decide (i < maxR)) ∧
    (runRate [] u e maxR w (t0 :: ts)).2
      = [(u ++ ":" ++ e, ⟨min (1 + ts.length) maxR, t0 + w⟩)] := by
  have h1 : checkRateLimit [] u e maxR w t0
      = (true, [(u ++ ":" ++ e, ⟨1, t0 + w⟩)]) := by
    simp [checkRateLimit, mapGet, mapSet, mapDelete]
  simp only [runRate, h1]
  rw [runRate_window u e maxR w (t0 + w) ts hts 1 (by omega)]
  refine ⟨?_, rfl⟩
  rw [List.range_succ_eq_map, List.map_cons, List.map_map]
  refine List.cons_eq_cons.mpr ⟨?_, ?_⟩
  · simp [hmax]
  · refine List.map_congr_left fun a _ => ?_
    show decide (1 + a < maxR) = decide (Nat.succ a < maxR)
    exact decide_eq_decide.mpr (by omega)

/-! Per-connection isolation of the typing timeouts. -/

theorem mapGet_onTyping_other (st : GatewayState) (sid : String) (rid : JSVal)
    (now : Nat) (sid2 : String) (h : sid2 ≠ sid) :
    mapGet (onTyping st sid rid now).1.typingTimeouts sid2
      = mapGet st.typingTimeouts sid2 := by
  rcases onTyping_timeouts_shape st sid rid now with heq | ⟨tm, heq⟩ <;> rw [heq]
  exact mapGet_mapSet_ne _ sid sid2 tm h

theorem mapGet_onStopTyping_other (st : GatewayState) (sid : String) (rid : JSVal)
    (sid2 : String) (h : sid2 ≠ sid) :
    mapGet (onStopTyping st sid rid).1.typingTimeouts sid2
      = mapGet st.typingTimeouts sid2 := by
  rcases onStopTyping_timeouts_shape st sid rid with heq | heq <;> rw [heq]
  exact mapGet_mapDelete_ne _ sid sid2 h

theorem mapGet_fireTypingTimeout_other (st : GatewayState) (sid sid2 : String)
    (h : sid2 ≠ sid) :
    mapGet (fireTypingTimeout st sid).1.typingTimeouts sid2
      = mapGet st.typingTimeouts sid2 := by
  rcases fireTypingTimeout_timeouts_shape st sid with heq | heq <;> rw [heq]
  exact mapGet_mapDelete_ne _ sid sid2 h

theorem mapGet_onDisconnect_other (st : GatewayState) (sid sid2 : String)
    (h : sid2 ≠ sid) :
    mapGet (onDisconnect st sid).1.typingTimeouts sid2
      = mapGet st.typingTimeouts sid2 := by
  rcases onDisconnect_timeouts_shape st sid with heq | heq <;> rw [heq]
  exact mapGet_mapDelete_ne _ sid sid2 h

theorem not_mem_mapDelete_self {α : Type} (m : List (String × α)) (k : String)
    (v : α) : (k, v) ∉ mapDelete m k := by
  intro hmem
  have := List.of_mem_filter hmem
  simp at this

/-! Handler equations under explicit hypotheses. -/

theorem onTyping_success_eq (st : GatewayState) (sid : String) (sock : Socket)
    (rid : JSVal) (now : Nat)
    (hs : findSocket st sid = some sock)
    (hrid : isValidMongoId rid = true)
    (hrate : (checkRateLimit st.rateLimits sock.userId "typing" 3 1000 now).1 = true) :
    onTyping st sid rid now
      = ({ st with
            rateLimits := (checkRateLimit st.rateLimits sock.userId "typing" 3 1000 now).2,
            typingTimeouts :=
              mapSet st.typingTimeouts sid ⟨now + 5000, jsToString rid, sock.userId⟩ },
         [⟨.room (jsToString rid), "user_typing", .pUser sock.userId⟩]) := by
  unfold onTyping
  rw [hs]
  dsimp only
  rw [if_neg (by rw [hrid]; simp), if_neg (by rw [hrate]; simp)]

theorem onTyping_reject_eq (st : GatewayState) (sid : String) (sock : Socket)
    (rid : JSVal) (now : Nat)
    (hs : findSocket st sid = some sock)
    (hrid : isValidMongoId rid = true)
    (hrate : (checkRateLimit st.rateLimits sock.userId "typing" 3 1000 now).1 = false) :
    onTyping st sid rid now
      = ({ st with
            rateLimits := (checkRateLimit st.rateLimits sock.userId "typing" 3 1000 now).2 },
         []) := by
  unfold onTyping
  rw [hs]
  dsimp only
  rw [if_neg (by rw [hrid]; simp), if_pos (by rw [hrate]; simp)]

theorem onStopTyping_eq (st : GatewayState) (sid : String) (sock : Socket)
    (rid : JSVal)
    (hs : findSocket st sid = some sock)
    (hrid : isValidMongoId rid = true) :
    onStopTyping st sid rid
      = ({ st with typingTimeouts := mapDelete st.typingTimeouts sid },
         [⟨.room (jsToString rid), "user_stop_typing", .pUser sock.userId⟩]) := by
  unfold onStopTyping
  rw [hs]
  dsimp only
  rw [if_neg (by rw [hrid]; simp)]

theorem onMarkRead_reject_eq (st : GatewayState) (sid : String) (sock : Socket)
    (sender : JSVal) (cnt now : Nat)
    (hs : findSocket st sid = some sock)
    (hrate : (checkRateLimit st.rateLimits sock.userId "mark_read" 20 1000 now).1 = false) :
    onMarkRead st sid sender cnt now
      = ({ st with
            rateLimits := (checkRateLimit st.rateLimits sock.userId "mark_read" 20 1000 now).2 },
         [⟨.selfSock sid, "mark_read_error", .pError "Rate limit exceeded"⟩]) := by
  unfold onMarkRead
  rw [hs]
  dsimp only
  rw [if_pos (by rw [hrate]; simp)]

theorem onDisconnect_eq (st : GatewayState) (sid : String) (sock : Socket)
    (hs : findSocket st sid = some sock) :
    onDisconnect st sid
      = ({ sockets := st.sockets.filter (fun s => !(decide (s.sid = sid))),
           onlineUsers := mapDelete st.onlineUsers sock.userId,
           typingTimeouts := mapDelete st.typingTimeouts sid,
           rateLimits :=
             st.rateLimits.filter (fun p => !(p.1.startsWith sock.userId)) },
         [⟨.all, "user_offline", .pUser sock.userId⟩]) := by
  unfold onDisconnect
  rw [hs]

theorem fireTypingTimeout_eq (st : GatewayState) (sid : String) (tm : Timer)
    (h : mapGet st.typingTimeouts sid = some tm) :
    fireTypingTimeout st sid
      = ({ st with typingTimeouts := mapDelete st.typingTimeouts sid },
         [⟨.room tm.receiverId, "user_stop_typing", .pUser tm.userId⟩]) := by
  unfold fireTypingTimeout
  rw [h]

theorem fireTypingTimeout_none (st : GatewayState) (sid : String)
    (h : mapGet st.typingTimeouts sid = none) :
    fireTypingTimeout st sid = (st, []) := by
  unfold fireTypingTimeout
  rw [h]

/-! Claim theorems. -/

/-- Claim C10: an id in an inbound event (typing.receiverId,
stop_typing.receiverId, mark_read.senderId) and the user id extracted from
token claims passes the format check exactly when it is a string of exactly
24 hexadecimal characters; every other value (non-string, empty, wrong
length, non-hex characters) fails the check. -/
theorem c10_mongo_id_format (v : JSVal) :
    isValidMongoId v = true ↔
      ∃ s : String, v = .str s ∧ s.length = 24 ∧ ∀ c ∈ s.toList, c ∈ hexChars := by
  constructor
  · intro h
    cases v with
    | str s =>
      by_cases hs : s = ""
      · subst hs
        simp [isValidMongoId, jsTruthy] at h
      · simp [isValidMongoId, jsTruthy, hs] at h
        exact ⟨s, rfl, h.1, fun c hc => (regexHexChar_iff_mem c).mp (h.2 c hc)⟩
    | num n => simp [isValidMongoId, jsTruthy, ite_self] at h
    | boolV b => simp [isValidMongoId, jsTruthy, ite_self] at h
    | nullV => simp [isValidMongoId, jsTruthy] at h
    | undefVal => simp [isValidMongoId, jsTruthy] at h
  · rintro ⟨s, rfl, hlen, hhex⟩
    have hs : ¬(s = "") := by
      intro he
      subst he
      simp at hlen
    simp [isValidMongoId, jsTruthy, hs]
    exact ⟨hlen, fun c hc => (regexHexChar_iff_mem c).mpr (hhex c hc)⟩

/-- Witness for C10 at a concrete 24-character hex string. -/
theorem c10_witness : isValidMongoId (.str "0123456789abcdefABCDEF00") = true :=
  (c10_mongo_id_format (.str "0123456789abcdefABCDEF00")).mpr
    ⟨"0123456789abcdefABCDEF00", rfl, by decide, by decide⟩

/-- Claim C3: the rate limiter is an exact fixed-window counter.  Per-call:
first access or an expired window resets to count 1 and reset time
now + windowMs and allows; a live window below maxRequests increments and
allows; a live window at maxRequests rejects and leaves the registry (count
and resetAt) untouched.  Consequently, of a run started on a fresh key
whose later calls all fall inside the first window, exactly the first
maxRequests calls are allowed and every later one is rejected, and a call
after the window expires is allowed again with a fresh window. -/
theorem c3_rate_limiter_fixed_window :
    (∀ (rl : RateMap) (u e : String) (maxR w now : Nat),
       mapGet rl (u ++ ":" ++ e) = none →
       checkRateLimit rl u e maxR w now
         = (true, mapSet rl (u ++ ":" ++ e) ⟨1, now + w⟩)) ∧
    (∀ (rl : RateMap) (u e : String) (maxR w now : Nat) (en : RateEntry),
       mapGet rl (u ++ ":" ++ e) = some en → now > en.resetAt →
       checkRateLimit rl u e maxR w now
         = (true, mapSet rl (u ++ ":" ++ e) ⟨1, now + w⟩)) ∧
    (∀ (rl : RateMap) (u e : String) (maxR w now : Nat) (en : RateEntry),
       mapGet rl (u ++ ":" ++ e) = some en → ¬ now > en.resetAt →
       en.count < maxR →
       checkRateLimit rl u e maxR w now
         = (true, mapSet rl (u ++ ":" ++ e) ⟨en.count + 1, en.resetAt⟩)) ∧
    (∀ (rl : RateMap) (u e : String) (maxR w now : Nat) (en : RateEntry),
       mapGet rl (u ++ ":" ++ e) = some en → ¬ now > en.resetAt →
       en.count ≥ maxR →
       checkRateLimit rl u e maxR w now = (false, rl)) ∧
    (∀ (u e : String) (maxR w t0 : Nat) (ts : List Nat), 0 < maxR →
       (∀ t ∈ ts, t ≤ t0 + w) →
       (runRate [] u e maxR w (t0 :: ts)).1
         = (List.range (ts.length + 1)).map (fun i => decide (i < maxR))) ∧
    (∀ (u e : String) (maxR w t0 tn : Nat) (ts : List Nat), 0 < maxR →
       (∀ t ∈ ts, t ≤ t0 + w) → tn > t0 + w →
       checkRateLimit (runRate [] u e maxR w (t0 :: ts)).2 u e maxR w tn
         = (true,
            mapSet (runRate [] u e maxR w (t0 :: ts)).2 (u ++ ":" ++ e) ⟨1, tn + w⟩)) := by
  refine ⟨checkRateLimit_fresh, ?_, ?_, ?_, ?_, ?_⟩
  · exact fun rl u e maxR w now en h ht => checkRateLimit_reset rl u e maxR w now en h ht
  · exact fun rl u e maxR w now en h ht hc =>
      checkRateLimit_increment rl u e maxR w now en h ht hc
  · exact fun rl u e maxR w now en h ht hc =>
      checkRateLimit_reject rl u e maxR w now en h ht hc
  · exact fun u e maxR w t0 ts hmax hts => (runRate_from_empty u e maxR w t0 ts hmax hts).1
  · intro u e maxR w t0 tn ts hmax hts htn
    have h2 := (runRate_from_empty u e maxR w t0 ts hmax hts).2
    rw [h2]
    have hget : mapGet [(u ++ ":" ++ e, (⟨min (1 + ts.length) maxR, t0 + w⟩ : RateEntry))]
        (u ++ ":" ++ e) = some ⟨min (1 + ts.length) maxR, t0 + w⟩ :=
      mapGet_cons_self _ [] _ rfl
    exact checkRateLimit_reset _ u e maxR w tn _ hget htn

/-- Witness for C3: policy 3 per 1000ms, calls at 5; 0,1,2,3,4; then 2000. -/
theorem c3_witness :
    checkRateLimit [] "u" "typing" 3 1000 5
      = (true, mapSet [] ("u" ++ ":" ++ "typing") ⟨1, 1005⟩) ∧
    (runRate [] "u" "typing" 3 1000 [0, 1, 2, 3, 4]).1
      = [true, true, true, false, false] ∧
    checkRateLimit (runRate [] "u" "typing" 3 1000 [0, 1, 2, 3, 4]).2
        "u" "typing" 3 1000 2000
      = (true,
         mapSet (runRate [] "u" "typing" 3 1000 [0, 1, 2, 3, 4]).2
           ("u" ++ ":" ++ "typing") ⟨1, 3000⟩) := by
  refine ⟨?_, ?_, ?_⟩
  · exact c3_rate_limiter_fixed_window.1 [] "u" "typing" 3 1000 5 rfl
  · have h := c3_rate_limiter_fixed_window.2.2.2.2.1 "u" "typing" 3 1000 0 [1, 2, 3, 4]
      (by decide) (by decide)
    rw [h]
    decide
  · exact c3_rate_limiter_fixed_window.2.2.2.2.2 "u" "typing" 3 1000 0 2000 [1, 2, 3, 4]
      (by decide) (by decide) (by decide)

/-- Claim C9 (implicit): for every stop_typing event whose receiverId
passes the id format check, the handler emits user_stop_typing to the
receiver room unconditionally, whatever the typing state of the connection
is — in particular also when no stop-task is armed (witness below runs it
in an Idle state). -/
theorem c9_stop_typing_unconditional (st : GatewayState) (sid : String)
    (sock : Socket) (rid : String)
    (hs : findSocket st sid = some sock)
    (hrid : isValidMongoId (.str rid) = true) :
    (onStopTyping st sid (.str rid)).2
      = [⟨.room rid, "user_stop_typing", .pUser sock.userId⟩] := by
  rw [onStopTyping_eq st sid sock (.str rid) hs hrid]
  rfl

/-- Witness for C9: an Idle connection (no pending stop-task) still causes
a user_stop_typing emission. -/
theorem c9_witness :
    mapGet st2.typingTimeouts "s1" = none ∧
    (onStopTyping st2 "s1" (.str uB)).2
      = [⟨.room uB, "user_stop_typing", .pUser uA⟩] := by
  refine ⟨by decide, ?_⟩
  exact c9_stop_typing_unconditional st2 "s1" ⟨"s1", uA⟩ uB (by decide) (by decide)

/-- Claim C7: notifyUser (sendToUser) never throws (it is total by
construction): it returns false with no delivery exactly in the
uninitialized state, and otherwise returns true and emits the named event
to the user room, which every active connection of that user is a member
of. -/
theorem c7_sendToUser_contract :
    (∀ (uid ev : String) (d : Payload), sendToUser none uid ev d = (false, [])) ∧
    (∀ (st : GatewayState) (uid ev : String) (d : Payload),
       (sendToUser (some st) uid ev d).1 = true ∧
       (sendToUser (some st) uid ev d).2 = [⟨.room uid, ev, d⟩] ∧
       ∀ s ∈ st.sockets, s.userId = uid →
         s.sid ∈ deliveredSids st (sendToUser (some st) uid ev d).2) := by
  refine ⟨fun uid ev d => rfl, fun st uid ev d => ⟨rfl, rfl, ?_⟩⟩
  intro s hmem huid
  show s.sid ∈ deliveredSids st [⟨.room uid, ev, d⟩]
  simp only [deliveredSids, List.flatMap_cons, List.flatMap_nil, List.append_nil,
    recipients, roomMembers]
  refine List.mem_map.mpr ⟨s, List.mem_filter.mpr ⟨hmem, ?_⟩, rfl⟩
  simp [huid]

/-- Witness for C7 at the two-connection state st2. -/
theorem c7_witness :
    sendToUser none uA "new_message" (.pUser uB) = (false, []) ∧
    (sendToUser (some st2) uA "new_message" (.pUser uB)).1 = true ∧
    "s1" ∈ deliveredSids st2 (sendToUser (some st2) uA "new_message" (.pUser uB)).2 := by
  refine ⟨c7_sendToUser_contract.1 uA "new_message" (.pUser uB),
    (c7_sendToUser_contract.2 st2 uA "new_message" (.pUser uB)).1, ?_⟩
  exact (c7_sendToUser_contract.2 st2 uA "new_message" (.pUser uB)).2.2
    ⟨"s1", uA⟩ (by decide) (by decide)

/-- Claim C2: connection admission enforces the per-user quota.  With the
credential resolving to uid: at 5 or more current connections the attempt
is rejected as a quota violation and the whole state is untouched; below 5
(and a fresh socket id) it is accepted and the socket list is extended by
exactly the new connection, leaving every previously admitted connection in
place; and every reachable state keeps every user at 5 connections or
fewer. -/
theorem c2_connection_quota (verify : Verifier) :
    (∀ (st : GatewayState) (h : Handshake) (sid uid : String),
       authResolve verify h = .ok uid →
       countConnections st.sockets uid ≥ 5 →
       authMiddleware verify h st.sockets = .rejected "Too many active connections" ∧
       onConnect verify st h sid = (st, [])) ∧
    (∀ (st : GatewayState) (h : Handshake) (sid uid : String),
       authResolve verify h = .ok uid →
       countConnections st.sockets uid < 5 →
       st.sockets.all (fun s => !(decide (s.sid = sid))) = true →
       authMiddleware verify h st.sockets = .accepted uid ∧
       (onConnect verify st h sid).1.sockets = st.sockets ++ [⟨sid, uid⟩]) ∧
    (∀ st : GatewayState, Reachable verify st →
       ∀ uid : String, countConnections st.sockets uid ≤ 5) := by
  refine ⟨?_, ?_, fun st hr uid => reachable_quota verify st hr uid⟩
  · intro st h sid uid hres hq
    have hmw : authMiddleware verify h st.sockets
        = .rejected "Too many active connections" := by
      unfold authMiddleware
      rw [hres]
      show (if countConnections st.sockets uid ≥ 5 then
          AuthOutcome.rejected "Too many active connections"
          else AuthOutcome.accepted uid) = _
      rw [if_pos hq]
    refine ⟨hmw, ?_⟩
    unfold onConnect
    by_cases hg : st.sockets.any (fun s => decide (s.sid = sid)) = true
    · rw [if_pos hg]
    · rw [if_neg hg, hmw]
  · intro st h sid uid hres hq hfresh
    have hmw : authMiddleware verify h st.sockets = .accepted uid := by
      unfold authMiddleware
      rw [hres]
      show (if countConnections st.sockets uid ≥ 5 then
          AuthOutcome.rejected "Too many active connections"
          else AuthOutcome.accepted uid) = _
      rw [if_neg (by omega)]
    refine ⟨hmw, ?_⟩
    unfold onConnect
    have hg : ¬(st.sockets.any (fun s => decide (s.sid = sid)) = true) := by
      intro hany
      rcases List.any_eq_true.mp hany with ⟨s, hsmem, hsid⟩
      have hall := List.all_eq_true.mp hfresh s hsmem
      rw [hsid] at hall
      exact absurd hall (by decide)
    rw [if_neg hg, hmw]

/-- Witness for C2: the 6th connection of uA is rejected without touching
the state; a 2nd connection is admitted keeping the 1st; the initial state
satisfies the quota bound. -/
theorem c2_witness :
    authMiddleware verify1 hsGood stFive.sockets
      = .rejected "Too many active connections" ∧
    onConnect verify1 stFive hsGood "c6" = (stFive, []) ∧
    authMiddleware verify1 hsGood st1.sockets = .accepted uA ∧
    (onConnect verify1 st1 hsGood "s2").1.sockets = st1.sockets ++ [⟨"s2", uA⟩] ∧
    countConnections initialState.sockets uA ≤ 5 := by
  have h1 := (c2_connection_quota verify1).1 stFive hsGood "c6" uA (by rfl) (by decide)
  have h2 := (c2_connection_quota verify1).2.1 st1 hsGood "s2" uA (by rfl) (by decide)
    (by decide)
  have h3 := (c2_connection_quota verify1).2.2 initialState Reachable.init uA
  exact ⟨h1.1, h1.2, h2.1, h2.2, h3⟩

/-- Claim C5: a typing event that passes the id check and the rate limit
while a stop-task is pending replaces that task by a fresh one scheduled
5000ms after the event: user_typing is re-emitted to the (possibly new)
target, every pending task of the connection afterwards carries the new
deadline (so nothing fires at the old one), and if no further typing event
arrives the armed task fires exactly once, emitting one user_stop_typing to
the latest target. -/
theorem c5_typing_renewal (st : GatewayState) (sid : String) (sock : Socket)
    (rid : String) (now : Nat) (oldTm : Timer)
    (hs : findSocket st sid = some sock)
    (hold : mapGet st.typingTimeouts sid = some oldTm)
    (hrid : isValidMongoId (.str rid) = true)
    (hrate : (checkRateLimit st.rateLimits sock.userId "typing" 3 1000 now).1 = true) :
    (onTyping st sid (.str rid) now).2
      = [⟨.room rid, "user_typing", .pUser sock.userId⟩] ∧
    mapGet (onTyping st sid (.str rid) now).1.typingTimeouts sid
      = some ⟨now + 5000, rid, sock.userId⟩ ∧
    (∀ tm : Timer, (sid, tm) ∈ (onTyping st sid (.str rid) now).1.typingTimeouts →
       tm.fireAt = now + 5000) ∧
    (fireTypingTimeout (onTyping st sid (.str rid) now).1 sid).2
      = [⟨.room rid, "user_stop_typing", .pUser sock.userId⟩] ∧
    mapGet (fireTypingTimeout (onTyping st sid (.str rid) now).1 sid).1.typingTimeouts
        sid = none ∧
    (fireTypingTimeout (fireTypingTimeout (onTyping st sid (.str rid) now).1 sid).1
        sid).2 = [] := by
  have heq := onTyping_success_eq st sid sock (.str rid) now hs hrid hrate
  have hTT : (onTyping st sid (.str rid) now).1.typingTimeouts
      = mapSet st.typingTimeouts sid ⟨now + 5000, rid, sock.userId⟩ := by
    rw [heq]
    rfl
  have hget : mapGet (onTyping st sid (.str rid) now).1.typingTimeouts sid
      = some ⟨now + 5000, rid, sock.userId⟩ := by
    rw [hTT]
    exact mapGet_mapSet_self st.typingTimeouts sid _
  have hfire := fireTypingTimeout_eq (onTyping st sid (.str rid) now).1 sid
    ⟨now + 5000, rid, sock.userId⟩ hget
  have hgone : mapGet (fireTypingTimeout (onTyping st sid (.str rid) now).1
      sid).1.typingTimeouts sid = none := by
    rw [hfire]
    show mapGet (mapDelete (onTyping st sid (.str rid) now).1.typingTimeouts sid) sid
      = none
    exact mapGet_mapDelete_self _ sid
  refine ⟨by rw [heq]; rfl, hget, ?_, by rw [hfire], hgone, ?_⟩
  · intro tm hmem
    have hmem2 : (sid, tm) ∈ mapDelete st.typingTimeouts sid
        ++ [(sid, (⟨now + 5000, rid, sock.userId⟩ : Timer))] := by
      rw [hTT] at hmem
      exact hmem
    rcases List.mem_append.mp hmem2 with hbad | hone
    · exact absurd hbad (not_mem_mapDelete_self st.typingTimeouts sid tm)
    · have hp : (sid, tm) = (sid, (⟨now + 5000, rid, sock.userId⟩ : Timer)) :=
        List.mem_singleton.mp hone
      have ht : tm = ⟨now + 5000, rid, sock.userId⟩ := by
        simpa using hp
      rw [ht]
  · rw [fireTypingTimeout_none _ sid hgone]

/-- Witness for C5: connection s1 of uA renews its typing toward uB at time
4000 while the task armed at time 0 (deadline 5000) is still pending. -/
theorem c5_witness :
    mapGet stTyping.typingTimeouts "s1" = some ⟨5000, uB, uA⟩ ∧
    (onTyping stTyping "s1" (.str uB) 4000).2
      = [⟨.room uB, "user_typing", .pUser uA⟩] ∧
    mapGet (onTyping stTyping "s1" (.str uB) 4000).1.typingTimeouts "s1"
      = some ⟨9000, uB, uA⟩ ∧
    (fireTypingTimeout (onTyping stTyping "s1" (.str uB) 4000).1 "s1").2
      = [⟨.room uB, "user_stop_typing", .pUser uA⟩] := by
  have h := c5_typing_renewal stTyping "s1" ⟨"s1", uA⟩ uB 4000 ⟨5000, uB, uA⟩
    (by decide) (by decide) (by decide) (by decide)
  exact ⟨by decide, h.1, h.2.1, h.2.2.2.1⟩

/-- Claim C6: stop-tasks are keyed strictly by connection id: every
reachable state holds at most one pending task per connection, and a typing
renewal, stop_typing, task firing, or disconnect on one connection never
changes the pending task of any other connection (in particular not of
another connection of the same user). -/
theorem c6_stop_tasks_keyed_by_connection (verify : Verifier) :
    (∀ st : GatewayState, Reachable verify st →
       ∀ sid : String, countKey st.typingTimeouts sid ≤ 1) ∧
    (∀ (st : GatewayState) (sid : String) (rid : JSVal) (now : Nat) (sid2 : String),
       sid2 ≠ sid →
       mapGet (onTyping st sid rid now).1.typingTimeouts sid2
         = mapGet st.typingTimeouts sid2) ∧
    (∀ (st : GatewayState) (sid : String) (rid : JSVal) (sid2 : String), sid2 ≠ sid →
       mapGet (onStopTyping st sid rid).1.typingTimeouts sid2
         = mapGet st.typingTimeouts sid2) ∧
    (∀ (st : GatewayState) (sid sid2 : String), sid2 ≠ sid →
       mapGet (fireTypingTimeout st sid).1.typingTimeouts sid2
         = mapGet st.typingTimeouts sid2) ∧
    (∀ (st : GatewayState) (sid sid2 : String), sid2 ≠ sid →
       mapGet (onDisconnect st sid).1.typingTimeouts sid2
         = mapGet st.typingTimeouts sid2) :=
  ⟨fun st hr sid => reachable_timerCount verify st hr sid,
   mapGet_onTyping_other,
   mapGet_onStopTyping_other,
   mapGet_fireTypingTimeout_other,
   mapGet_onDisconnect_other⟩

/-- Witness for C6: in the reachable state where connection s1 of uA is
typing, a stop_typing from the second connection s2 of the same user leaves
the pending stop-task of s1 untouched. -/
theorem c6_witness :
    countKey stTyping.typingTimeouts "s1" ≤ 1 ∧
    mapGet (onStopTyping stTyping "s2" (.str uB)).1.typingTimeouts "s1"
      = mapGet stTyping.typingTimeouts "s1" := by
  have hreach : Reachable verify1 stTyping :=
    Reachable.step (GEvent.typing "s1" (.str uB) 0)
      (Reachable.step (GEvent.connect hsGood "s2")
        (Reachable.step (GEvent.connect hsGood "s1") Reachable.init))
  exact ⟨(c6_stop_tasks_keyed_by_connection verify1).1 stTyping hreach "s1",
    (c6_stop_tasks_keyed_by_connection verify1).2.2.1 stTyping "s2" (.str uB) "s1"
      (by decide)⟩

/-- Counterexample to claim C1 as stated: in st2 user uA holds two open
connections (s1 and s2); disconnecting s1 nevertheless broadcasts
user_offline and makes isUserOnline(uA) false although s2 is still
connected. -/
theorem c1_counterexample :
    findSocket st2 "s1" = some ⟨"s1", uA⟩ ∧
    findSocket st2 "s2" = some ⟨"s2", uA⟩ ∧
    (onDisconnect st2 "s1").2 = [⟨.all, "user_offline", .pUser uA⟩] ∧
    isUserOnline (onDisconnect st2 "s1").1 uA = false ∧
    findSocket (onDisconnect st2 "s1").1 "s2" = some ⟨"s2", uA⟩ := by
  refine ⟨by decide, by decide, by decide, by decide, by decide⟩

/-- Claim C1 amended: handling a disconnect removes exactly that connection
from the socket set, but deletes the whole presence entry of its user and
broadcasts user_offline unconditionally, so isUserOnline(userId) becomes
false even while other connections of the same user remain open. -/
theorem c1_disconnect_unconditional (st : GatewayState) (sid : String)
    (sock : Socket) (hs : findSocket st sid = some sock) :
    (onDisconnect st sid).2 = [⟨.all, "user_offline", .pUser sock.userId⟩] ∧
    isUserOnline (onDisconnect st sid).1 sock.userId = false ∧
    (onDisconnect st sid).1.sockets
      = st.sockets.filter (fun s => !(decide (s.sid = sid))) := by
  rw [onDisconnect_eq st sid sock hs]
  refine ⟨rfl, ?_, rfl⟩
  show (mapGet (mapDelete st.onlineUsers sock.userId) sock.userId).isSome = false
  rw [mapGet_mapDelete_self]
  rfl

/-- Witness for C1 amended, at the two-connection state st2. -/
theorem c1_witness :
    (onDisconnect st2 "s1").1.sockets
      = st2.sockets.filter (fun s => !(decide (s.sid = "s1"))) ∧
    isUserOnline (onDisconnect st2 "s1").1 uA = false := by
  have h := c1_disconnect_unconditional st2 "s1" ⟨"s1", uA⟩ (by decide)
  exact ⟨h.2.2, h.2.1⟩

/-- Counterexample to claim C4 as stated: the stop_typing handler consults
no rate limiter.  With every stop_typing counter of uA saturated far inside
its window (a state in which any consultation with the policies the gateway
uses would reject), the event still emits user_stop_typing, and the rate
registry is left byte-for-byte unchanged. -/
theorem c4_counterexample :
    stSaturated.rateLimits = [(uA ++ ":stop_typing", ⟨1000000, 1000000000⟩)] ∧
    (onStopTyping stSaturated "s1" (.str uB)).2
      = [⟨.room uB, "user_stop_typing", .pUser uA⟩] ∧
    (onStopTyping stSaturated "s1" (.str uB)).1.rateLimits
      = stSaturated.rateLimits := by
  refine ⟨by decide, by decide, by decide⟩

/-- Claim C4 amended: typing and mark_read go through the rate limiter
before their handler effects (typing after its id format check): a limiter
rejection leaves typing with no emission and no timer change, and leaves
mark_read with only the mark_read_error reply; stop_typing, however, never
consults the rate limiter — whenever its receiverId passes the format check
it emits user_stop_typing, with the rate registry unchanged. -/
theorem c4_rate_limit_coverage :
    (∀ (st : GatewayState) (sid : String) (sock : Socket) (rid : JSVal) (now : Nat),
       findSocket st sid = some sock →
       isValidMongoId rid = true →
       (checkRateLimit st.rateLimits sock.userId "typing" 3 1000 now).1 = false →
       (onTyping st sid rid now).2 = [] ∧
       (onTyping st sid rid now).1.typingTimeouts = st.typingTimeouts) ∧
    (∀ (st : GatewayState) (sid : String) (sock : Socket) (sender : JSVal)
       (cnt now : Nat),
       findSocket st sid = some sock →
       (checkRateLimit st.rateLimits sock.userId "mark_read" 20 1000 now).1 = false →
       (onMarkRead st sid sender cnt now).2
         = [⟨.selfSock sid, "mark_read_error", .pError "Rate limit exceeded"⟩]) ∧
    (∀ (st : GatewayState) (sid : String) (sock : Socket) (rid : JSVal),
       findSocket st sid = some sock →
       isValidMongoId rid = true →
       (onStopTyping st sid rid).2
         = [⟨.room (jsToString rid), "user_stop_typing", .pUser sock.userId⟩] ∧
       (onStopTyping st sid rid).1.rateLimits = st.rateLimits) := by
  refine ⟨?_, ?_, ?_⟩
  · intro st sid sock rid now hs hrid hrate
    rw [onTyping_reject_eq st sid sock rid now hs hrid hrate]
    exact ⟨rfl, rfl⟩
  · intro st sid sock sender cnt now hs hrate
    rw [onMarkRead_reject_eq st sid sock sender cnt now hs hrate]
  · intro st sid sock rid hs hrid
    rw [onStopTyping_eq st sid sock rid hs hrid]
    exact ⟨rfl, rfl⟩

/-- Witness for C4 amended: rejected typing and mark_read events of uA in
the saturated state produce no effect beyond the error reply, while
stop_typing emits despite the saturation. -/
theorem c4_witness :
    (onTyping stRateLimited "s1" (.str uB) 5).2 = [] ∧
    (onMarkRead stRateLimited "s1" (.str uB) 0 5).2
      = [⟨.selfSock "s1", "mark_read_error", .pError "Rate limit exceeded"⟩] ∧
    (onStopTyping stRateLimited "s1" (.str uB)).2
      = [⟨.room uB, "user_stop_typing", .pUser uA⟩] := by
  refine ⟨?_, ?_, ?_⟩
  · exact (c4_rate_limit_coverage.1 stRateLimited "s1" ⟨"s1", uA⟩ (.str uB) 5
      (by decide) (by decide) (by decide)).1
  · exact c4_rate_limit_coverage.2.1 stRateLimited "s1" ⟨"s1", uA⟩ (.str uB) 0 5
      (by decide) (by decide)
  · exact (c4_rate_limit_coverage.2.2 stRateLimited "s1" ⟨"s1", uA⟩ (.str uB)
      (by decide) (by decide)).1

/-- Counterexample to claim C8 as stated: a bad-signature token and an
expired token are two different failure causes, yet both connection
attempts terminate with the identical reason "Authentication failed", so
the five causes do not each carry a distinct error. -/
theorem c8_counterexample :
    verify1 "tok-badsig" = .badSignature ∧
    verify1 "tok-expired" = .expired ∧
    hsBadSig ≠ hsExpired ∧
    authResolve verify1 hsBadSig = .error "Authentication failed" ∧
    authResolve verify1 hsExpired = .error "Authentication failed" := by
  refine ⟨by rfl, by rfl, by decide, by rfl, by rfl⟩

/-- Claim C8 amended: each failure cause terminates the attempt with a
descriptive reason and no state change: a missing cookie header yields
"Authentication required", a cookie without token yields "Authentication
token missing", malformed claims yield "Invalid token payload" (three
pairwise distinct reasons, also distinct from the catch-all), while an
invalid signature and an expired token share the single catch-all reason
"Authentication failed"; every rejected attempt leaves the gateway state
unchanged and emits nothing. -/
theorem c8_auth_error_taxonomy (verify : Verifier) :
    (∀ h : Handshake, h.cookieHeader = none →
       authResolve verify h = .error "Authentication required") ∧
    (∀ (h : Handshake) (cs : List (String × String)),
       h.cookieHeader = some cs → tokenOf cs = none →
       authResolve verify h = .error "Authentication token missing") ∧
    (∀ (h : Handshake) (cs : List (String × String)) (tok : String),
       h.cookieHeader = some cs → tokenOf cs = some tok →
       verify tok = .badSignature →
       authResolve verify h = .error "Authentication failed") ∧
    (∀ (h : Handshake) (cs : List (String × String)) (tok : String),
       h.cookieHeader = some cs → tokenOf cs = some tok →
       verify tok = .expired →
       authResolve verify h = .error "Authentication failed") ∧
    (∀ (h : Handshake) (cs : List (String × String)) (tok : String)
       (claims : Claims),
       h.cookieHeader = some cs → tokenOf cs = some tok →
       verify tok = .ok claims →
       (jsTruthy (extractUserId claims) = false ∨
        isValidMongoId (extractUserId claims) = false) →
       authResolve verify h = .error "Invalid token payload") ∧
    List.Nodup ["Authentication required", "Authentication token missing",
      "Invalid token payload", "Authentication failed"] ∧
    (∀ (st : GatewayState) (h : Handshake) (sid reason : String),
       authMiddleware verify h st.sockets = .rejected reason →
       onConnect verify st h sid = (st, [])) := by
  refine ⟨?_, ?_, ?_, ?_, ?_, by decide, ?_⟩
  · intro h hnone
    unfold authResolve
    rw [hnone]
  · intro h cs hcs htok
    unfold authResolve
    rw [hcs]
    show (match tokenOf cs with
      | none => Except.error "Authentication token missing"
      | some tok => _) = _
    rw [htok]
  · intro h cs tok hcs htok hver
    unfold authResolve
    rw [hcs]
    show (match tokenOf cs with
      | none => Except.error "Authentication token missing"
      | some tok => _) = _
    rw [htok]
    show (match verify tok with
      | .badSignature => Except.error "Authentication failed"
      | .expired => Except.error "Authentication failed"
      | .ok claims => _) = _
    rw [hver]
  · intro h cs tok hcs htok hver
    unfold authResolve
    rw [hcs]
    show (match tokenOf cs with
      | none => Except.error "Authentication token missing"
      | some tok => _) = _
    rw [htok]
    show (match verify tok with
      | .badSignature => Except.error "Authentication failed"
      | .expired => Except.error "Authentication failed"
      | .ok claims => _) = _
    rw [hver]
  · intro h cs tok claims hcs htok hver hbad
    unfold authResolve
    rw [hcs]
    show (match tokenOf cs with
      | none => Except.error "Authentication token missing"
      | some tok => _) = _
    rw [htok]
    show (match verify tok with
      | .badSignature => Except.error "Authentication failed"
      | .expired => Except.error "Authentication failed"
      | .ok claims => _) = _
    rw [hver]
    show (if !(jsTruthy (extractUserId claims)) || !(isValidMongoId (extractUserId claims))
        then Except.error "Invalid token payload"
        else Except.ok (jsToString (extractUserId claims))) = _
    rw [if_pos]
    rcases hbad with hb | hb <;> rw [hb] <;> simp
  · intro st h sid reason hmw
    unfold onConnect
    by_cases hg : st.sockets.any (fun s => decide (s.sid = sid)) = true
    · rw [if_pos hg]
    · rw [if_neg hg, hmw]

/-- Witness for C8 amended at the concrete handshakes. -/
theorem c8_witness :
    authResolve verify1 hsNoCookie = .error "Authentication required" ∧
    authResolve verify1 hsNoToken = .error "Authentication token missing" ∧
    authResolve verify1 hsBadSig = .error "Authentication failed" ∧
    authResolve verify1 hsExpired = .error "Authentication failed" ∧
    authResolve verify1 hsBadClaims = .error "Invalid token payload" ∧
    onConnect verify1 initialState hsBadSig "s9" = (initialState, []) := by
  have h := c8_auth_error_taxonomy verify1
  refine ⟨h.1 hsNoCookie rfl,
    h.2.1 hsNoToken [("theme", "dark")] rfl (by rfl),
    h.2.2.1 hsBadSig [("jwt", "tok-badsig")] "tok-badsig" rfl (by rfl) (by rfl),
    h.2.2.2.1 hsExpired [("jwt", "tok-expired")] "tok-expired" rfl (by rfl) (by rfl),
    h.2.2.2.2.1 hsBadClaims [("jwt", "tok-badclaims")] "tok-badclaims"
      ⟨.str "zzz", .undefVal, .undefVal⟩ rfl (by rfl) (by rfl) (Or.inr (by rfl)),
    h.2.2.2.2.2.2 initialState hsBadSig "s9" "Authentication failed" (by rfl)⟩

end ChatGateway
